import Mathlib

/-!
Verification development for the OpenAlex preprint-servers batch trends
builder (`openalex_preprints.py`).  The definitions below are a shallow
embedding of the script's pure core: the date normalizer
`iso_to_year_month`, the retrying HTTP client `api_get` (modelled over an
abstract sequence of response statuses), the JSON flattener
`flatten_json`, and the aggregation/deduplication/export logic of
`build_zip_from_selection`.  Sleep durations (Python floats) are modelled
as rationals; Python dicts are modelled as total functions into `Option`
together with an explicit insertion-ordered key list where the key order
is observable; Python sets are modelled as `Finset`.
-/

/-! ### Models of Python string/int primitives -/

/-- ASCII decimal digit test (the digits relevant to the script's inputs). -/
def pyDigit (c : Char) : Bool := '0' ≤ c && c ≤ '9'

/-- Numeric value of a list of decimal digit characters. -/
def digitsVal (l : List Char) : Nat := l.foldl (fun a c => 10 * a + (c.toNat - 48)) 0

/-- ASCII whitespace characters stripped by Python's `int(str)`. -/
def isPySpace (c : Char) : Bool :=
  c = ' ' || c = '\t' || c = '\n' || c = '\r' || c = '\x0b' || c = '\x0c'

/-- Strip leading and trailing whitespace, as `int(str)` does. -/
def pyStrip (l : List Char) : List Char :=
  ((l.dropWhile isPySpace).reverse.dropWhile isPySpace).reverse

/-- Continuation of a Python integer literal body: `('_'? digit)*`
(an underscore must be followed by a digit). -/
def numTail : List Char → Bool
  | [] => true
  | [c] => pyDigit c
  | c :: c2 :: rest =>
    if c = '_' then pyDigit c2 && numTail (c2 :: rest)
    else pyDigit c && numTail (c2 :: rest)

/-- A valid Python integer literal body: a digit followed by `('_'? digit)*`. -/
def numOk : List Char → Bool
  | [] => false
  | c :: rest => pyDigit c && numTail rest

/-- Value of a digit group once underscores are removed, when well-formed. -/
def pyIntDigits? (l : List Char) : Option Nat :=
  if numOk l then some (digitsVal (l.filter (fun c => c ≠ '_'))) else none

/-- Model of Python `int(s)` on strings (base 10): strips surrounding
whitespace, accepts an optional sign, digits with single interior
underscores; `none` models the `ValueError` raised otherwise. -/
def pyInt? (s : String) : Option Int :=
  match pyStrip s.toList with
  | [] => none
  | c :: rest =>
    if c = '+' then (pyIntDigits? rest).map (fun n => (n : Int))
    else if c = '-' then (pyIntDigits? rest).map (fun n => -(n : Int))
    else (pyIntDigits? (c :: rest)).map (fun n => (n : Int))

/-- Model of Python `str.isdigit` (ASCII digits): nonempty and all digits. -/
def pyIsdigit (s : String) : Bool := !s.toList.isEmpty && s.toList.all pyDigit

/-- Zero padding of a decimal string to a given width. -/
def padZeros (w : Nat) (s : String) : String :=
  String.mk (List.replicate (w - s.length) '0') ++ s

/-- Model of Python's `f"{n:0wd}"` formatting: zero-pad to width `w`,
the sign occupying one position of the width. -/
def pyZFill (w : Nat) (n : Int) : String :=
  if n < 0 then "-" ++ padZeros (w - 1) (toString (-n)) else padZeros w (toString n)

/-- Model of Python `str(x)` for the year field of a `counts_by_year`
entry: the script applies `str(row.get("year", ""))`, so a missing year
becomes `""` and an integer year its decimal text. -/
def pyStr : Option Int → String
  | none => ""
  | some n => toString n

/-! ### Model of `datetime.fromisoformat` on date-only strings -/

/-- Gregorian leap year test. -/
def isLeapYear (y : Nat) : Bool := y % 4 = 0 && (y % 100 ≠ 0 || y % 400 = 0)

/-- Days in a month of the proleptic Gregorian calendar. -/
def daysInMonth (y m : Nat) : Nat :=
  if m = 2 then (if isLeapYear y then 29 else 28)
  else if m = 4 || m = 6 || m = 9 || m = 11 then 30
  else 31

/-- Model of `datetime.fromisoformat` restricted to date-only strings,
the shape the works endpoint's `publication_date` takes: it succeeds
exactly on a valid `YYYY-MM-DD` calendar date with year at least 1
(Python's `MINYEAR`), returning the year and month.  Inputs with time
components are outside the model's scope. -/
def pyFromisoformatDate? (s : String) : Option (Nat × Nat) :=
  match s.toList with
  | [y1, y2, y3, y4, d1, m1, m2, d2, a1, a2] =>
    if d1 = '-' && d2 = '-' && [y1, y2, y3, y4, m1, m2, a1, a2].all pyDigit then
      let y := digitsVal [y1, y2, y3, y4]
      let mo := digitsVal [m1, m2]
      let da := digitsVal [a1, a2]
      if 1 ≤ y ∧ 1 ≤ mo ∧ mo ≤ 12 ∧ 1 ≤ da ∧ da ≤ daysInMonth y mo then some (y, mo)
      else none
    else none
  | _ => none

/-! ### `iso_to_year_month` -/

/-- Split a character list on a separator character; the list of parts is
nonempty and parts may be empty, exactly as Python's `str.split` with an
explicit single-character separator behaves. -/
def splitChar (sep : Char) : List Char → List (List Char)
  | [] => [[]]
  | c :: rest =>
    let r := splitChar sep rest
    if c = sep then [] :: r
    else
      match r with
      | [] => [[c]]
      | h :: t => (c :: h) :: t

/-- Model of `str(iso_date).split("-")`. -/
def pySplitDash (s : String) : List String :=
  (splitChar '-' s.toList).map (fun l => String.mk l)

/-- Embedding of `iso_to_year_month` (lines 236–250).  The input is the
value of `w.get("publication_date")` (`none` models Python `None`); the
falsy check `if not iso_date` also catches `""`.  On parse success the
key is `f"{dt.year:04d}-{dt.month:02d}"`; otherwise the string is split
on `"-"`: exactly two parts are formatted through `int(...)`, whose
`ValueError` is **not** caught and escapes the function (`Except.error`);
one all-digit part gets month `01`; anything else yields no key. -/
def isoToYearMonth (isoDate : Option String) : Except Unit (Option String) :=
  match isoDate with
  | none => .ok none
  | some s =>
    if s = "" then .ok none
    else
      match pyFromisoformatDate? s with
      | some ym => .ok (some (pyZFill 4 (ym.1 : Int) ++ "-" ++ pyZFill 2 (ym.2 : Int)))
      | none =>
        match pySplitDash s with
        | [y, m] =>
          match pyInt? y, pyInt? m with
          | some yi, some mi => .ok (some (pyZFill 4 yi ++ "-" ++ pyZFill 2 mi))
          | _, _ => .error ()
        | [p] =>
          if pyIsdigit p then .ok (some (pyZFill 4 ((pyInt? p).getD 0) ++ "-01"))
          else .ok none
        | _ => .ok none

/-! ### `api_get` -/

/-- Status codes the client retries on (line 101). -/
def retryableStatus (s : Nat) : Bool :=
  s = 429 || s = 500 || s = 502 || s = 503 || s = 504

/-- Statuses for which `requests.Response.raise_for_status` raises. -/
def raisesForStatus (s : Nat) : Bool := 400 ≤ s && s < 600

/-- Observable outcome of `api_get`: a returned response (with the number
of requests issued, the chronological list of backoff sleeps, and whether
the polite sleep ran), a raised `HTTPError`, or the `UnboundLocalError`
hit when the loop body never ran and `r` is unbound at line 106. -/
inductive ApiOutcome where
  | returned (status : Nat) (attempts : Nat) (backoffWaits : List ℚ) (politeSlept : Bool)
  | httpError (status : Nat) (attempts : Nat) (backoffWaits : List ℚ)
  | unboundLocalError
deriving DecidableEq

/-- Loop of `api_get` (lines 95–107) over an abstract response sequence
`statuses` (the status of the `i`-th request).  `fuel` is the remaining
iterations of `range(max_retries)`, `attempt` the number of requests
already made, `backoff` the current backoff, `waits` the backoff sleeps
performed so far.  A 200 returns (after the polite sleep when
`sleepS > 0`); a retryable status sleeps `backoff` and multiplies it by
1.6 = 8/5; any other status goes through `raise_for_status`, which raises
for 4xx/5xx and otherwise falls through to the next iteration.  After the
loop, `r.raise_for_status()` reruns on the last response and the response
is returned if it does not raise. -/
def apiGetGo (statuses : Nat → Nat) (sleepS : ℚ) :
    Nat → ℚ → Nat → List ℚ → ApiOutcome
  | 0, _, attempt, waits =>
    if attempt = 0 then .unboundLocalError
    else
      let last := statuses (attempt - 1)
      if raisesForStatus last then .httpError last attempt waits
      else .returned last attempt waits false
  | fuel + 1, backoff, attempt, waits =>
    let s := statuses attempt
    if s = 200 then .returned 200 (attempt + 1) waits (decide (0 < sleepS))
    else if retryableStatus s then
      apiGetGo statuses sleepS fuel (backoff * (8 / 5)) (attempt + 1) (waits ++ [backoff])
    else if raisesForStatus s then .httpError s (attempt + 1) waits
    else apiGetGo statuses sleepS fuel backoff (attempt + 1) waits

/-- Embedding of `api_get` (lines 89–107): `max_retries` is an `Int` so a
negative count (an empty `range`) is representable; the initial backoff is
`sleep_s`. -/
def apiGet (statuses : Nat → Nat) (sleepS : ℚ) (maxRetries : Int) : ApiOutcome :=
  apiGetGo statuses sleepS maxRetries.toNat sleepS 0 []

/-- Response sequence 503, 503, then 200 forever. -/
def seq503x2then200 : Nat → Nat := fun i => if i < 2 then 503 else 200

/-- Response sequence 503 then 404 forever. -/
def seq503then404 : Nat → Nat := fun i => if i = 0 then 503 else 404

/-! ### Deduplication of selected source ids -/

/-- Loop of the comprehension
`[x for x in chosen_sids if x and not (x in seen or seen.add(x))]`
(line 550): a falsy (empty) id is dropped without touching `seen`; an id
already in `seen` is dropped; otherwise it is kept and added to `seen`. -/
def dedupGo : List String → List String → List String
  | [], _ => []
  | x :: rest, seen =>
    if x = "" ∨ x ∈ seen then dedupGo rest seen
    else x :: dedupGo rest (x :: seen)

/-- Embedding of lines 546–550: the selected id lists are concatenated in
order (`for lst in selections_map.values(): chosen_sids.extend(lst)`,
dict values iterating in insertion order) and filtered through the
seen-set comprehension. -/
def dedupSids (selections : List (List String)) : List String :=
  dedupGo selections.flatten []

/-- First-occurrence deduplication as the spec words it: keep each
element's first occurrence, drop later exact repeats. -/
def firstDedup : List String → List String
  | [] => []
  | x :: rest => x :: firstDedup (rest.filter (fun y => y ≠ x))
termination_by l => l.length
decreasing_by
  exact Nat.lt_succ_of_le (List.length_filter_le _ _)

/-! ### JSON values and `flatten_json` -/

/-- JSON values as the script receives them (floats do not occur in the
fields the claims concern). An object's fields are kept in insertion
order, as Python dicts do. -/
inductive Json where
  | null
  | bool (b : Bool)
  | int (n : Int)
  | str (s : String)
  | arr (elems : List Json)
  | obj (fields : List (String × Json))

/-- `isinstance(el, dict)` test. -/
def isObjB : Json → Bool
  | .obj _ => true
  | _ => false

/-- Minimal JSON string escaping as `json.dumps(·, ensure_ascii=False)`
performs it: backslash, quote, and the common control characters. -/
def jsonEscapeChar (c : Char) : String :=
  if c = '"' then "\\\""
  else if c = '\\' then "\\\\"
  else if c = '\n' then "\\n"
  else if c = '\t' then "\\t"
  else if c = '\r' then "\\r"
  else String.mk [c]

/-- Escape a whole string for JSON output. -/
def jsonEscape (s : String) : String := String.join (s.toList.map jsonEscapeChar)

mutual

/-- Model of `json.dumps(x, ensure_ascii=False)` with Python's default
separators `", "` and `": "`. -/
def jsonDumps : Json → String
  | .null => "null"
  | .bool true => "true"
  | .bool false => "false"
  | .int n => toString n
  | .str s => "\x22" ++ jsonEscape s ++ "\x22"
  | .arr elems => "[" ++ jsonDumpsList elems ++ "]"
  | .obj fields => "\x7b" ++ jsonDumpsFields fields ++ "\x7d"

/-- Comma-joined dumps of array elements. -/
def jsonDumpsList : List Json → String
  | [] => ""
  | [x] => jsonDumps x
  | x :: rest => jsonDumps x ++ ", " ++ jsonDumpsList rest

/-- Comma-joined dumps of object fields. -/
def jsonDumpsFields : List (String × Json) → String
  | [] => ""
  | [(k, v)] => "\x22" ++ jsonEscape k ++ "\x22: " ++ jsonDumps v
  | (k, v) :: rest =>
    "\x22" ++ jsonEscape k ++ "\x22: " ++ jsonDumps v ++ ", " ++ jsonDumpsFields rest

end

/-- Embedding of `_stringify` (lines 177–182): `None` becomes the empty
string, strings/ints/bools their Python `str(...)` text, and any other
value its compact JSON text. -/
def pyStringify : Json → String
  | .null => ""
  | .str s => s
  | .int n => toString n
  | .bool true => "True"
  | .bool false => "False"
  | v => jsonDumps v

/-- `"|".join(_stringify(el) for el in elems)` — the delimited column for
a list that is not entirely made of nested objects. -/
def joinStringify (elems : List Json) : String :=
  String.intercalate "|" (elems.map pyStringify)

/-- The flat row under construction: Python's `out` dict, with insertion
order. -/
abbrev Assoc : Type := List (String × String)

/-- Python dict assignment `out[key] = v`: update in place when the key
is present (keeping its position), else append. -/
def dictSet (d : Assoc) (k v : String) : Assoc :=
  if k ∈ (List.map Prod.fst d) then
    List.map (fun p => if p.1 = k then (k, v) else p) d
  else d ++ [(k, v)]

mutual

/-- Embedding of `flatten_json` (lines 184–209), dispatching on the value
as the Python code does: dicts iterate their items, lists either explode
(when every element is a dict — vacuously so for an empty list) or join
into one delimited column, and scalars stringify into one column. -/
def flattenJson : Json → String → Assoc → Assoc
  | .obj fields, pre, out => flattenFields fields pre out
  | .arr elems, pre, out =>
    if elems.all isObjB then flattenTopList elems pre 0 out
    else dictSet out (if pre = "" then "value" else pre) (joinStringify elems)
  | v, pre, out => dictSet out (if pre = "" then "value" else pre) (pyStringify v)

/-- The `for k, v in obj.items()` loop: builds
`key = f"{prefix}__{k}" if prefix else k` and handles `v` by shape. -/
def flattenFields : List (String × Json) → String → Assoc → Assoc
  | [], _, out => out
  | (k, v) :: rest, pre, out =>
    let key := if pre = "" then k else pre ++ "__" ++ k
    let out2 :=
      match v with
      | .obj fields2 => flattenFields fields2 key out
      | .arr elems =>
        if elems.all isObjB then flattenObjList elems key 0 out
        else dictSet out key (joinStringify elems)
      | _ => dictSet out key (pyStringify v)
    flattenFields rest pre out2

/-- The `for i, el in enumerate(v)` explode loop inside the dict branch:
each element recurses under `f"{key}_{i}"`. -/
def flattenObjList : List Json → String → Nat → Assoc → Assoc
  | [], _, _, out => out
  | el :: rest, key, i, out =>
    flattenObjList rest key (i + 1) (flattenJson el (key ++ "_" ++ toString i) out)

/-- The explode loop of the top-level list branch: each element recurses
under `f"{prefix}_{i}" if prefix else str(i)`. -/
def flattenTopList : List Json → String → Nat → Assoc → Assoc
  | [], _, _, out => out
  | el :: rest, pre, i, out =>
    flattenTopList rest pre (i + 1)
      (flattenJson el (if pre = "" then toString i else pre ++ "_" ++ toString i) out)

end

mutual

/-- The sequence of (column, value) writes `flatten_json` performs, in
order, as the spec describes them: one write per leaf scalar or joined
list, lists of nested objects exploding into index-suffixed sub-keys. -/
def leafKVs : Json → String → List (String × String)
  | .obj fields, pre => leafFields fields pre
  | .arr elems, pre =>
    if elems.all isObjB then leafTopList elems pre 0
    else [((if pre = "" then "value" else pre), joinStringify elems)]
  | v, pre => [((if pre = "" then "value" else pre), pyStringify v)]

/-- Leaf writes of an object's fields, in field order. -/
def leafFields : List (String × Json) → String → List (String × String)
  | [], _ => []
  | (k, v) :: rest, pre =>
    let key := if pre = "" then k else pre ++ "__" ++ k
    (match v with
      | .obj fields2 => leafFields fields2 key
      | .arr elems =>
        if elems.all isObjB then leafObjList elems key 0
        else [(key, joinStringify elems)]
      | _ => [(key, pyStringify v)]) ++ leafFields rest pre

/-- Leaf writes of an exploded list in the dict branch. -/
def leafObjList : List Json → String → Nat → List (String × String)
  | [], _, _ => []
  | el :: rest, key, i => leafKVs el (key ++ "_" ++ toString i) ++ leafObjList rest key (i + 1)

/-- Leaf writes of an exploded top-level list. -/
def leafTopList : List Json → String → Nat → List (String × String)
  | [], _, _ => []
  | el :: rest, pre, i =>
    leafKVs el (if pre = "" then toString i else pre ++ "_" ++ toString i) ++
      leafTopList rest pre (i + 1)

end

/-- Fold a sequence of dict writes over a row. -/
def dsFold (out : Assoc) (kvs : List (String × String)) : Assoc :=
  kvs.foldl (fun o kv => dictSet o kv.1 kv.2) out

/-! ### Aggregation engine and export shape -/

/-- One entry of a source's `counts_by_year` snapshot.  Missing fields
and JSON `null` are `none`; the script turns the year into a string with
`str(row.get("year", ""))` and the counts into ints with
`int(row.get(..., 0) or 0)`. -/
structure YearCount where
  year : Option Int
  works_count : Option Int
  cited_by_count : Option Int
deriving DecidableEq

/-- The fields of a fetched source record that the aggregation engine
reads (lines 653–690): `src.get("id")`, `src.get("display_name", "")`
and `src.get("counts_by_year", [])`. -/
structure SourceRecord where
  id : Option String
  display_name : String
  counts_by_year : List YearCount
deriving DecidableEq

/-- A streamed work as `iter_works_for_source` yields it (line 168):
`publication_date` may be absent (`None`), `cited_by_count` may be
absent or `null`. -/
structure Work where
  publication_date : Option String
  cited_by_count : Option Int
deriving DecidableEq

/-- Errors the build loop can raise: the fail-fast `ValueError("No
sources selected.")` and the uncaught `ValueError` escaping `int(...)`
inside `iso_to_year_month`. -/
inductive BuildErr where
  | noSources
  | valueError
deriving DecidableEq

/-- The mutable accumulators of `build_zip_from_selection`
(lines 560–566): `years_seen`/`months_seen` are Python sets (`Finset`);
`yearly_data`/`monthly_data` are nested dicts, modelled as a total
function from (source id, period) into an optional
(works_count, cited_by_count) pair together with the dict's
insertion-ordered key list (`ysids`/`msids`); `sid_to_name` is a dict
read back with default `""`. -/
structure AggState where
  yearsSeen : Finset String
  ysids : List String
  ydata : String × String → Option (Int × Int)
  monthsSeen : Finset String
  msids : List String
  mdata : String × String → Option (Int × Int)
  names : String → String

/-- The empty accumulators the build starts from. -/
def AggState.init : AggState :=
  ⟨∅, [], fun _ => none, ∅, [], fun _ => none, fun _ => ""⟩

theorem AggState.ext {a b : AggState} (h1 : a.yearsSeen = b.yearsSeen)
    (h2 : a.ysids = b.ysids) (h3 : a.ydata = b.ydata)
    (h4 : a.monthsSeen = b.monthsSeen) (h5 : a.msids = b.msids)
    (h6 : a.mdata = b.mdata) (h7 : a.names = b.names) : a = b := by
  cases a; cases b; simp_all

/-- `dict.setdefault` at the outer level: record a key's first insertion
at the end of the ordered key list. -/
def listInsertOnce (l : List String) (x : String) : List String :=
  if x ∈ l then l else l ++ [x]

/-- One iteration of the yearly loop (lines 684–690): stringify the
year, skip it unless it `isdigit`, otherwise record the year, ensure the
bucket exists and overwrite both counters with the snapshot values. -/
def applyYearlyRow (sid : String) (st : AggState) (row : YearCount) : AggState :=
  let y := pyStr row.year
  if pyIsdigit y then
    { st with
      yearsSeen := insert y st.yearsSeen
      ysids := listInsertOnce st.ysids sid
      ydata := fun p =>
        if p = (sid, y) then some (row.works_count.getD 0, row.cited_by_count.getD 0)
        else st.ydata p }
  else st

/-- The whole yearly loop `for row in cby` (lines 684–690). -/
def applyYearly (sid : String) (cby : List YearCount) (st : AggState) : AggState :=
  cby.foldl (applyYearlyRow sid) st

/-- The set of digit year keys a snapshot contributes to `years_seen`. -/
def digitYears (cby : List YearCount) : Finset String :=
  (cby.filterMap (fun row =>
    if pyIsdigit (pyStr row.year) then some (pyStr row.year) else none)).toFinset

/-- Does some entry of the snapshot write the yearly bucket at key `p`? -/
def yearWrites (sid : String) (cby : List YearCount) (p : String × String) : Bool :=
  cby.any (fun row => pyIsdigit (pyStr row.year) && decide (p = (sid, pyStr row.year)))

/-- One iteration of the monthly loop (lines 702–708): derive the
year-month key (an escaping `ValueError` aborts the build), skip the
work when there is no key, otherwise record the month, ensure the bucket
exists, increment the work counter by one and the citation counter by
`int(w.get("cited_by_count", 0) or 0)`. -/
def stepWork (sid : String) (st : AggState) (w : Work) : Except BuildErr AggState :=
  match isoToYearMonth w.publication_date with
  | .error _ => .error .valueError
  | .ok none => .ok st
  | .ok (some ym) =>
    .ok { st with
      monthsSeen := insert ym st.monthsSeen
      msids := listInsertOnce st.msids sid
      mdata := fun p =>
        if p = (sid, ym) then
          some (((st.mdata (sid, ym)).getD (0, 0)).1 + 1,
            ((st.mdata (sid, ym)).getD (0, 0)).2 + w.cited_by_count.getD 0)
        else st.mdata p }

/-- The whole monthly loop over one source's streamed works. -/
def processWorks (sid : String) (works : List Work) (st : AggState) :
    Except BuildErr AggState :=
  works.foldlM (stepWork sid) st

/-- Does the pattern occur at the head of the list? -/
def headMatches : List Char → List Char → Bool
  | [], _ => true
  | _ :: _, [] => false
  | p :: ps, c :: cs => p = c && headMatches ps cs

/-- Left-to-right non-overlapping replacement of a nonempty pattern, as
Python's `str.replace` performs it: when `skip` is positive the current
character belongs to an occurrence already replaced and is dropped. -/
def replaceGo (pat rep : List Char) : Nat → List Char → List Char
  | _, [] => []
  | skip + 1, _ :: rest => replaceGo pat rep skip rest
  | 0, c :: rest =>
    if headMatches pat (c :: rest) then rep ++ replaceGo pat rep (pat.length - 1) rest
    else c :: replaceGo pat rep 0 rest

/-- `(src.get("id") or "").replace("https://openalex.org/", "")`
(lines 671 and 127): strip every occurrence of the OpenAlex URL base. -/
def shortId (id : Option String) : String :=
  String.mk (replaceGo "https://openalex.org/".toList [] 0 (id.getD "").toList)

/-- One iteration of the main build loop (lines 645–738) restricted to
the data accumulators: record the display name under the short id, apply
the yearly snapshot, and, when monthly aggregation is enabled, stream
the source's works into the monthly buckets. -/
def processSource (en : Bool) (st : AggState) (rec : SourceRecord) (works : List Work) :
    Except BuildErr AggState :=
  let sid := shortId rec.id
  let st1 := { st with names := fun s => if s = sid then rec.display_name else st.names s }
  let st2 := applyYearly sid rec.counts_by_year st1
  if en then processWorks sid works st2 else .ok st2

/-- The build pipeline of `build_zip_from_selection` (lines 544–738)
restricted to the aggregation accumulators: flatten and dedupe the
selected ids, fail fast with `ValueError("No sources selected.")` when
none remain, then process each chosen source in order.  `fetch` and
`works` stand for the (deterministic, per-id) API responses. -/
def runBuild (selections : List (List String)) (en : Bool)
    (fetch : String → SourceRecord) (works : String → List Work) :
    Except BuildErr AggState :=
  let chosen := dedupSids selections
  if chosen = [] then .error .noSources
  else chosen.foldlM (fun st sid => processSource en st (fetch sid) (works sid)) AggState.init

instance {ε α : Type} [DecidableEq ε] [DecidableEq α] : DecidableEq (Except ε α) := fun
  | .error e, .error f =>
    if h : e = f then .isTrue (by rw [h]) else .isFalse (by simp [h])
  | .error _, .ok _ => .isFalse (by simp)
  | .ok _, .error _ => .isFalse (by simp)
  | .ok a, .ok b =>
    if h : a = b then .isTrue (by rw [h]) else .isFalse (by simp [h])

/-- One row of `server_monthly_trends.csv` in its wide form: the three
fixed columns and then one integer cell per month column. -/
structure MonthlyRow where
  source_id : String
  display_name : String
  metric : String
  cells : List Int
deriving DecidableEq

/-- The shape of `server_monthly_trends.csv`: a wide table whose month
columns are the sorted observed months, or the single placeholder row
(lines 782–787). -/
inductive MonthlyCSV where
  | wide (months : List String) (rows : List MonthlyRow)
  | placeholder (source_id display_name metric note : String)
deriving DecidableEq

/-- The `works_count` row for one source:
`row_wc[m] = month_map.get(m, {}).get("works_count", 0)`. -/
def monthlyWorksRow (st : AggState) (months : List String) (sid : String) : MonthlyRow :=
  ⟨sid, st.names sid, "works_count", months.map (fun m => ((st.mdata (sid, m)).getD (0, 0)).1)⟩

/-- The `cited_by_count` row for one source. -/
def monthlyCitedRow (st : AggState) (months : List String) (sid : String) : MonthlyRow :=
  ⟨sid, st.names sid, "cited_by_count", months.map (fun m => ((st.mdata (sid, m)).getD (0, 0)).2)⟩

/-- The row list of the wide monthly table: two rows per source of
`monthly_data`, in dict order (lines 772–779). -/
def monthlyRows (st : AggState) (months : List String) : List MonthlyRow :=
  (st.msids.map (fun sid => [monthlyWorksRow st months sid, monthlyCitedRow st months sid])).flatten

/-- Embedding of lines 768–787: the wide table is built only when
monthly aggregation was enabled **and** at least one month key was
observed (`if monthly_enabled and months_seen:`); otherwise the single
placeholder row is emitted. -/
def monthlyTable (en : Bool) (st : AggState) : MonthlyCSV :=
  if en = true ∧ st.monthsSeen ≠ ∅ then
    let months := st.monthsSeen.sort (· ≤ ·)
    .wide months (monthlyRows st months)
  else .placeholder "" "" "info" "Monthly aggregation disabled in app."

/-! ### Basic lemmas about the Python primitives -/

theorem isPySpace_eq_false_of_pyDigit {c : Char} (h : pyDigit c = true) :
    isPySpace c = false := by
  cases hx : isPySpace c
  · rfl
  · exfalso
    simp only [isPySpace, Bool.or_eq_true, decide_eq_true_eq] at hx
    rcases hx with ((((h1 | h1) | h1) | h1) | h1) | h1 <;> subst h1 <;> revert h <;> decide

theorem dropWhile_eq_self_of_false {p : Char → Bool} {l : List Char}
    (h : ∀ c ∈ l, p c = false) : l.dropWhile p = l := by
  cases l with
  | nil => rfl
  | cons c rest => simp [List.dropWhile_cons, h c (List.mem_cons_self c rest)]

theorem pyStrip_eq_self {l : List Char} (h : ∀ c ∈ l, isPySpace c = false) :
    pyStrip l = l := by
  unfold pyStrip
  rw [dropWhile_eq_self_of_false h,
    dropWhile_eq_self_of_false (fun c hc => h c (List.mem_reverse.mp hc)), List.reverse_reverse]

theorem numTail_of_digits {l : List Char} (h : ∀ c ∈ l, pyDigit c = true) :
    numTail l = true := by
  induction l with
  | nil => rfl
  | cons c rest ih =>
    have hc : pyDigit c = true := h c (List.mem_cons_self c rest)
    have hne : ¬(c = '_') := fun he => by subst he; revert hc; decide
    have ih2 := ih (fun x hx => h x (List.mem_cons_of_mem _ hx))
    cases rest with
    | nil => simpa [numTail] using hc
    | cons c2 rest2 =>
      simp only [numTail]
      rw [if_neg hne, hc, ih2]
      rfl

theorem numOk_of_digits {l : List Char} (hne : l ≠ []) (h : ∀ c ∈ l, pyDigit c = true) :
    numOk l = true := by
  cases l with
  | nil => exact absurd rfl hne
  | cons c rest =>
    have h2 := numTail_of_digits (fun x hx => h x (List.mem_cons_of_mem _ hx))
    simp only [numOk]
    rw [h c (List.mem_cons_self c rest), h2]
    rfl

theorem pyIntDigits?_of_digits {l : List Char} (hne : l ≠ []) (h : ∀ c ∈ l, pyDigit c = true) :
    pyIntDigits? l = some (digitsVal l) := by
  have hfil : l.filter (fun c => c ≠ '_') = l := by
    rw [List.filter_eq_self]
    intro c hc
    have hc2 := h c hc
    simp only [ne_eq, decide_eq_true_eq]
    intro he
    subst he
    revert hc2
    decide
  have hcond : pyIntDigits? l =
      if numOk l then some (digitsVal (l.filter (fun c => c ≠ '_'))) else none := rfl
  rw [hcond, numOk_of_digits hne h, if_pos rfl, hfil]

theorem pyInt?_of_isdigit {s : String} (h : pyIsdigit s = true) :
    pyInt? s = some (digitsVal s.toList) := by
  have hall : ∀ c ∈ s.toList, pyDigit c = true := by
    intro c hc
    simp only [pyIsdigit, Bool.and_eq_true, List.all_eq_true] at h
    exact h.2 c hc
  have hne : s.toList ≠ [] := by
    intro he
    simp only [pyIsdigit, Bool.and_eq_true] at h
    rw [he] at h
    simp at h
  have hstrip : pyStrip s.toList = s.toList :=
    pyStrip_eq_self (fun c hc => isPySpace_eq_false_of_pyDigit (hall c hc))
  cases hl : s.toList with
  | nil => exact absurd hl hne
  | cons c rest =>
    have hc : pyDigit c = true := hall c (hl ▸ List.mem_cons_self c rest)
    have hplus : ¬(c = '+') := fun he => by subst he; revert hc; decide
    have hminus : ¬(c = '-') := fun he => by subst he; revert hc; decide
    have hdig := pyIntDigits?_of_digits (l := c :: rest) (by simp)
      (fun x hx => hall x (hl ▸ hx))
    have hgoal : pyInt? s =
        (if c = '+' then (pyIntDigits? rest).map (fun n => (n : Int))
         else if c = '-' then (pyIntDigits? rest).map (fun n => -(n : Int))
         else (pyIntDigits? (c :: rest)).map (fun n => (n : Int))) := by
      unfold pyInt?
      rw [hstrip, hl]
    rw [hgoal, if_neg hplus, if_neg hminus, hdig]
    rfl

/-! ### Claim C1 -/

/-- Claim C1 (counterexample): `iso_to_year_month` is **not** total.  On the
input `"a-b"` the ISO parse fails, the string splits into exactly two
parts, and the uncaught `int("a")` raises a `ValueError` that escapes the
function instead of yielding "no key". -/
theorem c1_counterexample : isoToYearMonth (some "a-b") = .error () := by decide

/-- Claim C1 (amended): year-month derivation is deterministic and behaves
as the spec's examples state — `"2021-03-15" ↦ "2021-03"`,
`"2021-03" ↦ "2021-03"`, `"2021" ↦ "2021-01"`, `"not-a-date" ↦ no key`,
and a missing date yields no key — but it is total only away from the
failure set characterized below: it raises (rather than returning no key)
exactly when the input is non-falsy, not a parseable ISO date, splits on
`"-"` into exactly two parts, and at least one part is not a valid Python
integer literal. -/
theorem c1_amended :
    isoToYearMonth (some "2021-03-15") = .ok (some "2021-03") ∧
    isoToYearMonth (some "2021-03") = .ok (some "2021-03") ∧
    isoToYearMonth (some "2021") = .ok (some "2021-01") ∧
    isoToYearMonth (some "not-a-date") = .ok none ∧
    isoToYearMonth none = .ok none ∧
    ∀ s : String, isoToYearMonth (some s) = .error () ↔
      (s ≠ "" ∧ pyFromisoformatDate? s = none ∧
        ∃ y m, pySplitDash s = [y, m] ∧ (pyInt? y = none ∨ pyInt? m = none)) := by
  refine ⟨by decide, by decide, by decide, by decide, rfl, fun s => ?_⟩
  by_cases hs : s = ""
  · simp [isoToYearMonth, hs]
  · cases hf : pyFromisoformatDate? s with
    | some ym => simp [isoToYearMonth, hs, hf]
    | none =>
      cases hsp : pySplitDash s with
      | nil => simp [isoToYearMonth, hs, hf, hsp]
      | cons a t =>
        cases t with
        | nil =>
          simp only [isoToYearMonth, if_neg hs, hf, hsp]
          constructor
          · intro h
            split at h <;> simp_all
          · rintro ⟨-, -, y, m, hym, -⟩
            simp at hym
        | cons b t2 =>
          cases t2 with
          | nil =>
            cases hy : pyInt? a <;> cases hm : pyInt? b <;>
                simp [isoToYearMonth, hs, hf, hsp, hy, hm] <;>
              first
              | exact ⟨a, b, ⟨rfl, rfl⟩, Or.inl hy⟩
              | exact ⟨a, b, ⟨rfl, rfl⟩, Or.inr hm⟩
          | cons c t3 => simp [isoToYearMonth, hs, hf, hsp]

/-! ### Claims C3 and C9 -/

/-- Claim C3: on the response sequence `[503, 503, 200]` the client
returns exactly one successful response on its third request, after
exactly two backoff waits of strictly increasing duration (the backoff is
multiplied by 1.6 = 8/5 after each retryable failure), provided the
budget allows at least three attempts; and a response sequence ending in
`404` raises immediately on the `404`, after exactly two requests and a
single backoff wait, regardless of how much retry budget remains. -/
theorem c3_retry_policy (b : ℚ) (n : Int) (hb : 0 < b) (hn : 3 ≤ n) :
    (apiGet seq503x2then200 b n = .returned 200 3 [b, b * (8 / 5)] true ∧
      b < b * (8 / 5)) ∧
    ∀ m : Int, 2 ≤ m → apiGet seq503then404 b m = .httpError 404 2 [b] := by
  have hd : decide (0 < b) = true := decide_eq_true hb
  constructor
  · constructor
    · obtain ⟨k, hk⟩ : ∃ k, n.toNat = k + 3 := ⟨n.toNat - 3, by omega⟩
      unfold apiGet
      rw [hk]
      simp [apiGetGo, seq503x2then200, retryableStatus, raisesForStatus, hd]
    · have h1 : b * 1 < b * (8 / 5) := by
        apply mul_lt_mul_of_pos_left _ hb
        norm_num
      simpa using h1
  · intro m hm
    obtain ⟨k, hk⟩ : ∃ k, m.toNat = k + 2 := ⟨m.toNat - 2, by omega⟩
    unfold apiGet
    rw [hk]
    simp [apiGetGo, seq503then404, retryableStatus, raisesForStatus]

/-- Claim C3 (witness): the retry-policy theorem instantiated at backoff
0.6 ↦ 1 and retry budgets 5 and 4. -/
theorem c3_witness :
    ((0 : ℚ) < 1 ∧ (3 : Int) ≤ 5 ∧ (2 : Int) ≤ 4) ∧
    apiGet seq503x2then200 1 5 = .returned 200 3 [1, 1 * (8 / 5)] true ∧
    (1 : ℚ) < 1 * (8 / 5) ∧
    apiGet seq503then404 1 4 = .httpError 404 2 [1] := by
  obtain ⟨⟨h1, h2⟩, h3⟩ := c3_retry_policy 1 5 (by norm_num) (by norm_num)
  exact ⟨⟨by norm_num, by norm_num, by norm_num⟩, h1, h2, h3 4 (by norm_num)⟩

/-- Claim C9: with `max_retries = 0` or negative, `range(max_retries)` is
empty, the loop body never runs, and the final `r.raise_for_status()`
hits the unbound local `r` — the call neither returns a response nor
raises an HTTP-status failure, for every response sequence and sleep. -/
theorem c9_unbound_local (statuses : Nat → Nat) (b : ℚ) (m : Int) (hm : m ≤ 0) :
    apiGet statuses b m = .unboundLocalError := by
  have h0 : m.toNat = 0 := Int.toNat_of_nonpos hm
  unfold apiGet
  rw [h0]
  rfl

/-- Claim C9 (witness): the unbound-local theorem at `max_retries = -3`. -/
theorem c9_witness :
    ((-3 : Int) ≤ 0) ∧ apiGet seq503then404 1 (-3) = .unboundLocalError :=
  ⟨by norm_num, c9_unbound_local seq503then404 1 (-3) (by norm_num)⟩

/-! ### Claim C7 -/

theorem firstDedup_cons (x : String) (l : List String) :
    firstDedup (x :: l) = x :: firstDedup (l.filter (fun y => y ≠ x)) := by
  simp [firstDedup]

theorem dedupGo_eq_firstDedup (l : List String) :
    ∀ seen, dedupGo l seen =
      firstDedup (l.filter (fun x => decide (x ≠ "" ∧ x ∉ seen))) := by
  induction l with
  | nil => intro seen; simp [dedupGo, firstDedup]
  | cons x rest ih =>
    intro seen
    by_cases hc : x = "" ∨ x ∈ seen
    · have hx : decide (x ≠ "" ∧ x ∉ seen) = false := by
        simp only [decide_eq_false_iff_not]
        tauto
      simp only [dedupGo, if_pos hc, List.filter_cons, hx]
      exact ih seen
    · push_neg at hc
      have hx : decide (x ≠ "" ∧ x ∉ seen) = true := by
        simp only [decide_eq_true_eq]
        exact hc
      have hpred : ∀ a ∈ rest,
          (decide (a ≠ x) && decide (a ≠ "" ∧ a ∉ seen)) =
            decide (a ≠ "" ∧ a ∉ x :: seen) := by
        intro a _
        by_cases h1 : a = "" <;> by_cases h2 : a ∈ seen <;> by_cases h3 : a = x <;>
          simp [h1, h2, h3, List.mem_cons]
      simp only [dedupGo, if_neg (by tauto : ¬(x = "" ∨ x ∈ seen)), List.filter_cons, hx,
        if_pos trivial, firstDedup_cons, ih (x :: seen), List.filter_filter]
      rw [List.filter_congr hpred]

/-- Claim C7 (counterexample): the empty identifier is a selectable value
(`c.get("short_id", "")` defaults to `""`), it is chosen here, yet the
processed list does not contain it at all — the comprehension at line 550
also drops falsy identifiers, so not every chosen identifier appears
exactly once. -/
theorem c7_counterexample :
    ("" ∈ ([[""]] : List (List String)).flatten) ∧ dedupSids [[""]] = [] := by
  constructor
  · decide
  · rfl

/-- Claim C7 (amended): the processed identifier list is exactly the
first-occurrence deduplication of the flattened selections **with empty
identifiers removed**: each nonempty chosen identifier appears exactly
once, in order of first occurrence, and exact repeats are dropped; in
particular `[A, B, A, C, B]` yields `[A, B, C]`. -/
theorem c7_amended :
    (∀ sels : List (List String),
      dedupSids sels = firstDedup (sels.flatten.filter (fun x => decide (x ≠ "")))) ∧
    dedupSids [["A", "B", "A", "C", "B"]] = ["A", "B", "C"] := by
  constructor
  · intro sels
    unfold dedupSids
    rw [dedupGo_eq_firstDedup]
    congr 1
    apply List.filter_congr
    intro a _
    rw [decide_eq_decide]
    simp
  · rfl

/-! ### Claim C8 -/

/-- Claim C8: when the selection mapping yields zero chosen identifiers
after flattening and deduplication, the build fails fast with
`ValueError("No sources selected.")` — the conclusion holds for **every**
fetch and works oracle, so no fetch is performed and no artifact is
produced (the result is the error, not a partial output). -/
theorem c8_no_sources (sels : List (List String)) (en : Bool)
    (fetch : String → SourceRecord) (works : String → List Work)
    (h : dedupSids sels = []) :
    runBuild sels en fetch works = .error .noSources := by
  simp [runBuild, h]

/-- Claim C8 (witness): a selection containing only an empty identifier
and an empty list dedupes to nothing and the build errors out. -/
theorem c8_witness :
    dedupSids [[""], []] = [] ∧
    runBuild [[""], []] false (fun _ => ⟨none, "", []⟩) (fun _ => []) = .error .noSources :=
  ⟨rfl, c8_no_sources [[""], []] false (fun _ => ⟨none, "", []⟩) (fun _ => []) rfl⟩

/-! ### Claim C2 -/

theorem monthlyRows_length_aux (st : AggState) (months : List String) :
    ∀ l : List String,
      ((l.map (fun sid => [monthlyWorksRow st months sid, monthlyCitedRow st months sid])).flatten).length =
        2 * l.length := by
  intro l
  induction l with
  | nil => rfl
  | cons sid rest ih =>
    simp only [List.map_cons, List.flatten_cons, List.length_append, List.length_cons,
      List.length_nil, ih]
    omega

/-- Claim C2 (counterexample): a run with monthly aggregation **enabled**
(one selected source whose works stream is empty) still produces the
single placeholder row, because line 769 tests `monthly_enabled and
months_seen` — so the placeholder is not emitted exactly when monthly
aggregation was not enabled. -/
theorem c2_counterexample :
    (runBuild [["S1"]] true (fun _ => ⟨some "https://openalex.org/S1", "bioRxiv", []⟩)
        (fun _ => [])).map (fun st => monthlyTable true st) =
      .ok (.placeholder "" "" "info" "Monthly aggregation disabled in app.") := by
  decide

/-- Claim C2 (amended): the monthly trends output is the placeholder row
(with note "Monthly aggregation disabled in app.") exactly when monthly
aggregation was disabled **or** no month key was observed; otherwise it
is the wide table whose columns are the sorted observed months with two
rows per source of the monthly buckets. -/
theorem c2_amended (st : AggState) :
    (monthlyTable false st =
      .placeholder "" "" "info" "Monthly aggregation disabled in app.") ∧
    (st.monthsSeen = ∅ →
      monthlyTable true st =
        .placeholder "" "" "info" "Monthly aggregation disabled in app.") ∧
    (st.monthsSeen ≠ ∅ →
      monthlyTable true st =
        .wide (st.monthsSeen.sort (· ≤ ·))
          (monthlyRows st (st.monthsSeen.sort (· ≤ ·))) ∧
      (monthlyRows st (st.monthsSeen.sort (· ≤ ·))).length = 2 * st.msids.length) := by
  refine ⟨?_, fun h => ?_, fun h => ⟨?_, ?_⟩⟩
  · simp [monthlyTable]
  · simp [monthlyTable, h]
  · simp [monthlyTable, h]
  · exact monthlyRows_length_aux st _ st.msids

/-- Claim C2 (witness): the amended theorem instantiated at a state with
one observed month and one monthly source, and at the empty state. -/
theorem c2_witness :
    (({"2021-03"} : Finset String) ≠ ∅ ∧ (AggState.init.monthsSeen = ∅)) ∧
    monthlyTable true { AggState.init with monthsSeen := {"2021-03"}, msids := ["S1"] } =
      .wide ["2021-03"]
        [⟨"S1", "", "works_count", [0]⟩, ⟨"S1", "", "cited_by_count", [0]⟩] ∧
    monthlyTable true AggState.init =
      .placeholder "" "" "info" "Monthly aggregation disabled in app." := by
  refine ⟨⟨by decide, rfl⟩, ?_, ?_⟩
  · have h := ((c2_amended
        { AggState.init with monthsSeen := {"2021-03"}, msids := ["S1"] }).2.2
        (by decide)).1
    refine h.trans ?_
    simp [monthlyRows, monthlyWorksRow, monthlyCitedRow, AggState.init, Finset.sort_singleton]
  · exact (c2_amended AggState.init).2.1 rfl

/-! ### Claim C10 -/

/-- Claim C10: the fallback branch of `iso_to_year_month` performs no
month-range validation: whenever the ISO parse fails and the non-falsy
input splits into exactly two all-digit parts, the zero-padded key built
from them is returned even when the month part is outside 1..12; in
particular `"2021-99"` yields the bucket key `"2021-99"`, a run streaming
a work dated `"2021-99"` records that key among the observed months, and
every observed month becomes a column of the wide monthly table. -/
theorem c10_month_range :
    (∀ s y m : String, pyFromisoformatDate? s = none → s ≠ "" →
      pySplitDash s = [y, m] → pyIsdigit y = true → pyIsdigit m = true →
      isoToYearMonth (some s) =
        .ok (some (pyZFill 4 (digitsVal y.toList : Int) ++ "-" ++
          pyZFill 2 (digitsVal m.toList : Int)))) ∧
    isoToYearMonth (some "2021-99") = .ok (some "2021-99") ∧
    (runBuild [["S1"]] true (fun _ => ⟨some "https://openalex.org/S1", "bioRxiv", []⟩)
        (fun _ => [⟨some "2021-99", some 3⟩])).map
        (fun st => decide ("2021-99" ∈ st.monthsSeen)) = .ok true ∧
    (∀ en (st : AggState) months rows, monthlyTable en st = .wide months rows →
      ∀ mo, mo ∈ st.monthsSeen → mo ∈ months) := by
  refine ⟨?_, by decide, by decide, ?_⟩
  · intro s y m hf hs hsp hy hm
    simp only [isoToYearMonth, if_neg hs, hf, hsp, pyInt?_of_isdigit hy, pyInt?_of_isdigit hm]
    rfl
  · intro en st months rows h mo hmo
    simp only [monthlyTable] at h
    split at h
    · simp only [MonthlyCSV.wide.injEq] at h
      rw [← h.1]
      exact (Finset.mem_sort _).mpr hmo
    · exact absurd h (by simp)

/-- Claim C10 (witness): the month-range theorem instantiated at
`"2021-99"`, whose parts `"2021"` and `"99"` are all-digit while the ISO
parse fails. -/
theorem c10_witness :
    (pyFromisoformatDate? "2021-99" = none ∧ ("2021-99" : String) ≠ "" ∧
      pySplitDash "2021-99" = ["2021", "99"] ∧
      pyIsdigit "2021" = true ∧ pyIsdigit "99" = true) ∧
    isoToYearMonth (some "2021-99") =
      .ok (some (pyZFill 4 (digitsVal "2021".toList : Int) ++ "-" ++
        pyZFill 2 (digitsVal "99".toList : Int))) := by
  refine ⟨⟨by decide, by decide, by decide, by decide, by decide⟩, ?_⟩
  exact c10_month_range.1 "2021-99" "2021" "99" (by decide) (by decide) (by decide)
    (by decide) (by decide)

/-! ### Claim C4 -/

theorem applyYearlyRow_ydata (sid : String) (st : AggState) (row : YearCount)
    (p : String × String) :
    (applyYearlyRow sid st row).ydata p =
      if pyIsdigit (pyStr row.year) = true ∧ p = (sid, pyStr row.year) then
        some (row.works_count.getD 0, row.cited_by_count.getD 0)
      else st.ydata p := by
  by_cases hd : pyIsdigit (pyStr row.year) = true
  · by_cases hp : p = (sid, pyStr row.year) <;> simp [applyYearlyRow, hd, hp]
  · simp [applyYearlyRow, hd]

theorem applyYearlyRow_yearsSeen (sid : String) (st : AggState) (row : YearCount) :
    (applyYearlyRow sid st row).yearsSeen =
      if pyIsdigit (pyStr row.year) = true then insert (pyStr row.year) st.yearsSeen
      else st.yearsSeen := by
  by_cases hd : pyIsdigit (pyStr row.year) = true <;> simp [applyYearlyRow, hd]

theorem applyYearlyRow_ysids (sid : String) (st : AggState) (row : YearCount) :
    (applyYearlyRow sid st row).ysids =
      if pyIsdigit (pyStr row.year) = true then listInsertOnce st.ysids sid
      else st.ysids := by
  by_cases hd : pyIsdigit (pyStr row.year) = true <;> simp [applyYearlyRow, hd]

theorem applyYearlyRow_untouched (sid : String) (st : AggState) (row : YearCount) :
    (applyYearlyRow sid st row).monthsSeen = st.monthsSeen ∧
    (applyYearlyRow sid st row).msids = st.msids ∧
    (applyYearlyRow sid st row).mdata = st.mdata ∧
    (applyYearlyRow sid st row).names = st.names := by
  by_cases hd : pyIsdigit (pyStr row.year) = true <;> simp [applyYearlyRow, hd]

theorem applyYearly_untouched (sid : String) (cby : List YearCount) : ∀ st : AggState,
    (applyYearly sid cby st).monthsSeen = st.monthsSeen ∧
    (applyYearly sid cby st).msids = st.msids ∧
    (applyYearly sid cby st).mdata = st.mdata ∧
    (applyYearly sid cby st).names = st.names := by
  induction cby with
  | nil => intro st; exact ⟨rfl, rfl, rfl, rfl⟩
  | cons row rest ih =>
    intro st
    have h1 := applyYearlyRow_untouched sid st row
    have h2 := ih (applyYearlyRow sid st row)
    exact ⟨h2.1.trans h1.1, h2.2.1.trans h1.2.1, h2.2.2.1.trans h1.2.2.1,
      h2.2.2.2.trans h1.2.2.2⟩

theorem applyYearly_yearsSeen (sid : String) (cby : List YearCount) : ∀ st : AggState,
    (applyYearly sid cby st).yearsSeen = st.yearsSeen ∪ digitYears cby := by
  induction cby with
  | nil => intro st; simp [applyYearly, digitYears]
  | cons row rest ih =>
    intro st
    show (applyYearly sid rest (applyYearlyRow sid st row)).yearsSeen = _
    rw [ih, applyYearlyRow_yearsSeen]
    by_cases hd : pyIsdigit (pyStr row.year) = true
    · simp [hd, digitYears, List.filterMap_cons, Finset.insert_union, Finset.union_insert]
    · simp [hd, digitYears, List.filterMap_cons]

theorem listInsertOnce_idem (l : List String) (x : String) :
    listInsertOnce (listInsertOnce l x) x = listInsertOnce l x := by
  unfold listInsertOnce
  by_cases h : x ∈ l
  · simp [h]
  · simp [h]

theorem applyYearly_ysids (sid : String) (cby : List YearCount) : ∀ st : AggState,
    (applyYearly sid cby st).ysids =
      if cby.any (fun row => pyIsdigit (pyStr row.year)) = true then
        listInsertOnce st.ysids sid
      else st.ysids := by
  induction cby with
  | nil => intro st; simp [applyYearly]
  | cons row rest ih =>
    intro st
    show (applyYearly sid rest (applyYearlyRow sid st row)).ysids = _
    rw [ih, applyYearlyRow_ysids]
    by_cases hd : pyIsdigit (pyStr row.year) = true <;>
      by_cases hr : rest.any (fun row => pyIsdigit (pyStr row.year)) = true <;>
      simp [List.any_cons, hd, hr, listInsertOnce_idem]

theorem applyYearly_ydata_unwritten (sid : String) (cby : List YearCount)
    (p : String × String) (hw : yearWrites sid cby p = false) : ∀ st : AggState,
    (applyYearly sid cby st).ydata p = st.ydata p := by
  induction cby with
  | nil => intro st; rfl
  | cons row rest ih =>
    intro st
    unfold yearWrites at hw
    rw [List.any_cons, Bool.or_eq_false_iff] at hw
    obtain ⟨hw1, hw2⟩ := hw
    show (applyYearly sid rest (applyYearlyRow sid st row)).ydata p = st.ydata p
    rw [ih hw2, applyYearlyRow_ydata]
    have hno : ¬(pyIsdigit (pyStr row.year) = true ∧ p = (sid, pyStr row.year)) := by
      rintro ⟨h1, h2⟩
      rw [h1, decide_eq_true h2] at hw1
      simp at hw1
    rw [if_neg hno]

theorem applyYearly_ydata_written (sid : String) (cby : List YearCount)
    (p : String × String) (hw : yearWrites sid cby p = true) : ∀ st st' : AggState,
    (applyYearly sid cby st).ydata p = (applyYearly sid cby st').ydata p := by
  induction cby with
  | nil => simp [yearWrites] at hw
  | cons row rest ih =>
    intro st st'
    show (applyYearly sid rest (applyYearlyRow sid st row)).ydata p =
      (applyYearly sid rest (applyYearlyRow sid st' row)).ydata p
    by_cases hr : yearWrites sid rest p = true
    · exact ih hr _ _
    · have hb : yearWrites sid rest p = false := by
        cases hx : yearWrites sid rest p
        · rfl
        · exact absurd hx hr
      rw [applyYearly_ydata_unwritten sid rest p hb, applyYearly_ydata_unwritten sid rest p hb,
        applyYearlyRow_ydata, applyYearlyRow_ydata]
      have hrow : pyIsdigit (pyStr row.year) = true ∧ p = (sid, pyStr row.year) := by
        unfold yearWrites at hw hb
        rw [List.any_cons, hb] at hw
        simpa using hw
      rw [if_pos hrow, if_pos hrow]

/-- Claim C4: yearly bucket updates have overwrite semantics.
(1) Applying a snapshot twice yields a state identical to applying it
once — totals are not doubled.  (2) A digit-year entry sets the bucket at
(source, year) to exactly the snapshot's `works_count` and
`cited_by_count` (missing/null counts read as 0) and leaves every other
key unchanged.  (3) An entry whose stringified year is not a digit string
is skipped entirely. -/
theorem c4_yearly_overwrite :
    (∀ (sid : String) (cby : List YearCount) (st : AggState),
      applyYearly sid cby (applyYearly sid cby st) = applyYearly sid cby st) ∧
    (∀ (sid : String) (st : AggState) (row : YearCount) (p : String × String),
      (applyYearlyRow sid st row).ydata p =
        if pyIsdigit (pyStr row.year) = true ∧ p = (sid, pyStr row.year) then
          some (row.works_count.getD 0, row.cited_by_count.getD 0)
        else st.ydata p) ∧
    (∀ (sid : String) (st : AggState) (row : YearCount),
      pyIsdigit (pyStr row.year) = false → applyYearlyRow sid st row = st) := by
  refine ⟨fun sid cby st => ?_, applyYearlyRow_ydata, fun sid st row h => ?_⟩
  · apply AggState.ext
    · rw [applyYearly_yearsSeen, applyYearly_yearsSeen, Finset.union_assoc,
        Finset.union_self]
    · rw [applyYearly_ysids, applyYearly_ysids]
      by_cases h : cby.any (fun row => pyIsdigit (pyStr row.year)) = true <;>
        simp [h, listInsertOnce_idem]
    · funext p
      cases hw : yearWrites sid cby p
      · rw [applyYearly_ydata_unwritten sid cby p hw]
      · exact applyYearly_ydata_written sid cby p hw _ _
    · exact (applyYearly_untouched sid cby _).1
    · exact (applyYearly_untouched sid cby _).2.1
    · exact (applyYearly_untouched sid cby _).2.2.1
    · exact (applyYearly_untouched sid cby _).2.2.2
  · simp [applyYearlyRow, h]

/-- Claim C4 (witness): the overwrite theorem at a concrete snapshot —
the digit-year entry (2021, 7, 9) writes the bucket `("S1", "2021")` to
`(7, 9)`, and the entry with a missing year is skipped. -/
theorem c4_witness :
    (pyIsdigit (pyStr (none : Option Int)) = false) ∧
    applyYearlyRow "S1" AggState.init ⟨none, some 1, some 1⟩ = AggState.init ∧
    (applyYearlyRow "S1" AggState.init ⟨some 2021, some 7, some 9⟩).ydata ("S1", "2021") =
      some (7, 9) := by
  refine ⟨by decide, c4_yearly_overwrite.2.2 "S1" AggState.init ⟨none, some 1, some 1⟩
    (by decide), ?_⟩
  rw [c4_yearly_overwrite.2.1 "S1" AggState.init ⟨some 2021, some 7, some 9⟩ ("S1", "2021")]
  decide

/-! ### Claim C5 -/

theorem exceptBind_ok {e a b : Type} (x : a) (f : a → Except e b) :
    (Except.ok x >>= f) = f x := rfl

theorem exceptBind_error {e a b : Type} (err : e) (f : a → Except e b) :
    ((Except.error err : Except e a) >>= f) = Except.error err := rfl

theorem stepWork_swap (sid : String) (x y : Work) (st : AggState) :
    (stepWork sid st x >>= fun s => stepWork sid s y) =
    (stepWork sid st y >>= fun s => stepWork sid s x) := by
  cases hx : isoToYearMonth x.publication_date with
  | error e =>
    cases hy : isoToYearMonth y.publication_date with
    | error e2 => simp [stepWork, hx, hy, exceptBind_ok, exceptBind_error]
    | ok oy =>
      cases oy with
      | none => simp [stepWork, hx, hy, exceptBind_ok, exceptBind_error]
      | some ymy => simp [stepWork, hx, hy, exceptBind_ok, exceptBind_error]
  | ok ox =>
    cases ox with
    | none =>
      cases hy : isoToYearMonth y.publication_date with
      | error e2 => simp [stepWork, hx, hy, exceptBind_ok, exceptBind_error]
      | ok oy =>
        cases oy with
        | none => simp [stepWork, hx, hy, exceptBind_ok, exceptBind_error]
        | some ymy => simp [stepWork, hx, hy, exceptBind_ok, exceptBind_error]
    | some ymx =>
      cases hy : isoToYearMonth y.publication_date with
      | error e2 => simp [stepWork, hx, hy, exceptBind_ok, exceptBind_error]
      | ok oy =>
        cases oy with
        | none => simp [stepWork, hx, hy, exceptBind_ok, exceptBind_error]
        | some ymy =>
          simp only [stepWork, hx, hy, exceptBind_ok]
          refine congrArg Except.ok (AggState.ext rfl rfl rfl ?_ rfl ?_ rfl)
          · exact Finset.Insert.comm ymy ymx st.monthsSeen
          · funext p
            by_cases hk : ymy = ymx
            · subst hk
              by_cases hp : p = (sid, ymy) <;> simp [hp]
              omega
            · have hkk : (sid, ymy) ≠ (sid, ymx) := by
                intro he
                exact hk (congrArg Prod.snd he)
              have hkk2 : (sid, ymx) ≠ (sid, ymy) := fun he => hkk he.symm
              by_cases hp1 : p = (sid, ymx) <;> by_cases hp2 : p = (sid, ymy) <;>
                simp [hp1, hp2, hkk, hkk2]

/-- Claim C5: monthly bucket accumulation is order-independent — for a
source's streamed works, processing any permutation of the same multiset
of works produces an identical result: the same uncaught error when some
work's date raises, and otherwise identical `months_seen`, identical
monthly dict keys, and identical (works_count, cited_by_count) counters
for every (source, month) key (each counted work adds one work and its
citation count, missing citations read as 0). -/
theorem c5_monthly_perm (sid : String) {l1 l2 : List Work} (hp : l1.Perm l2) :
    ∀ st : AggState, processWorks sid l1 st = processWorks sid l2 st := by
  induction hp with
  | nil => intro st; rfl
  | cons x hp ih =>
    intro st
    simp only [processWorks, List.foldlM_cons]
    cases hx : stepWork sid st x with
    | error e => rfl
    | ok s2 =>
      have := ih s2
      simp only [processWorks] at this
      simp [hx, exceptBind_ok, this]
  | swap x y l =>
    intro st
    simp only [processWorks, List.foldlM_cons]
    rw [← bind_assoc, ← bind_assoc, stepWork_swap]
  | trans h1 h2 ih1 ih2 => intro st; exact (ih1 st).trans (ih2 st)

/-- Claim C5 (witness): the permutation theorem at a two-work stream and
its transposition. -/
theorem c5_witness :
    (([(⟨some "2021-03-15", some 2⟩ : Work), ⟨some "2021-04-01", none⟩]).Perm
      [⟨some "2021-04-01", none⟩, ⟨some "2021-03-15", some 2⟩]) ∧
    processWorks "S1" [⟨some "2021-03-15", some 2⟩, ⟨some "2021-04-01", none⟩]
        AggState.init =
      processWorks "S1" [⟨some "2021-04-01", none⟩, ⟨some "2021-03-15", some 2⟩]
        AggState.init := by
  have hp : ([(⟨some "2021-03-15", some 2⟩ : Work), ⟨some "2021-04-01", none⟩]).Perm
      [⟨some "2021-04-01", none⟩, ⟨some "2021-03-15", some 2⟩] :=
    List.Perm.swap (⟨some "2021-04-01", none⟩ : Work) (⟨some "2021-03-15", some 2⟩ : Work) []
  exact ⟨hp, c5_monthly_perm "S1" hp AggState.init⟩

/-! ### Claim C6 -/

theorem dsFold_append (out : Assoc) (a b : List (String × String)) :
    dsFold out (a ++ b) = dsFold (dsFold out a) b := by
  simp [dsFold, List.foldl_append]

mutual

theorem flattenJson_eq_leaf : ∀ (j : Json) (pre : String) (out : Assoc),
    flattenJson j pre out = dsFold out (leafKVs j pre)
  | .null, _, _ => rfl
  | .bool _, _, _ => rfl
  | .int _, _, _ => rfl
  | .str _, _, _ => rfl
  | .arr elems, pre, out => by
    have hL : flattenJson (.arr elems) pre out =
        if elems.all isObjB then flattenTopList elems pre 0 out
        else dictSet out (if pre = "" then "value" else pre) (joinStringify elems) := rfl
    have hR : leafKVs (.arr elems) pre =
        if elems.all isObjB then leafTopList elems pre 0
        else [((if pre = "" then "value" else pre), joinStringify elems)] := rfl
    rw [hL, hR]
    by_cases h : elems.all isObjB = true
    · rw [if_pos h, if_pos h]
      exact flattenTopList_eq_leaf elems pre 0 out
    · rw [if_neg h, if_neg h]
      rfl
  | .obj fields, pre, out => flattenFields_eq_leaf fields pre out

theorem flattenFields_eq_leaf : ∀ (fields : List (String × Json)) (pre : String) (out : Assoc),
    flattenFields fields pre out = dsFold out (leafFields fields pre)
  | [], _, _ => rfl
  | (k, v) :: rest, pre, out => by
    cases v with
    | obj fields2 =>
      have hL : flattenFields ((k, Json.obj fields2) :: rest) pre out =
          flattenFields rest pre
            (flattenFields fields2 (if pre = "" then k else pre ++ "__" ++ k) out) := rfl
      have hR : leafFields ((k, Json.obj fields2) :: rest) pre =
          leafFields fields2 (if pre = "" then k else pre ++ "__" ++ k) ++
            leafFields rest pre := rfl
      rw [hL, hR, dsFold_append,
        ← flattenFields_eq_leaf fields2 (if pre = "" then k else pre ++ "__" ++ k) out]
      exact flattenFields_eq_leaf rest pre _
    | arr elems =>
      have hL : flattenFields ((k, Json.arr elems) :: rest) pre out =
          flattenFields rest pre
            (if elems.all isObjB then
              flattenObjList elems (if pre = "" then k else pre ++ "__" ++ k) 0 out
            else dictSet out (if pre = "" then k else pre ++ "__" ++ k)
              (joinStringify elems)) := rfl
      have hR : leafFields ((k, Json.arr elems) :: rest) pre =
          (if elems.all isObjB then
            leafObjList elems (if pre = "" then k else pre ++ "__" ++ k) 0
          else [((if pre = "" then k else pre ++ "__" ++ k), joinStringify elems)]) ++
            leafFields rest pre := rfl
      rw [hL, hR]
      by_cases h : elems.all isObjB = true
      · rw [if_pos h, if_pos h, dsFold_append,
          ← flattenObjList_eq_leaf elems (if pre = "" then k else pre ++ "__" ++ k) 0 out]
        exact flattenFields_eq_leaf rest pre _
      · rw [if_neg h, if_neg h]
        exact flattenFields_eq_leaf rest pre _
    | null => exact flattenFields_eq_leaf rest pre _
    | bool b => exact flattenFields_eq_leaf rest pre _
    | int n => exact flattenFields_eq_leaf rest pre _
    | str s => exact flattenFields_eq_leaf rest pre _

theorem flattenObjList_eq_leaf : ∀ (elems : List Json) (key : String) (i : Nat) (out : Assoc),
    flattenObjList elems key i out = dsFold out (leafObjList elems key i)
  | [], _, _, _ => rfl
  | el :: rest, key, i, out => by
    have hL : flattenObjList (el :: rest) key i out =
        flattenObjList rest key (i + 1) (flattenJson el (key ++ "_" ++ toString i) out) := rfl
    have hR : leafObjList (el :: rest) key i =
        leafKVs el (key ++ "_" ++ toString i) ++ leafObjList rest key (i + 1) := rfl
    rw [hL, hR, dsFold_append, ← flattenJson_eq_leaf el (key ++ "_" ++ toString i) out]
    exact flattenObjList_eq_leaf rest key (i + 1) _

theorem flattenTopList_eq_leaf : ∀ (elems : List Json) (pre : String) (i : Nat) (out : Assoc),
    flattenTopList elems pre i out = dsFold out (leafTopList elems pre i)
  | [], _, _, _ => rfl
  | el :: rest, pre, i, out => by
    have hL : flattenTopList (el :: rest) pre i out =
        flattenTopList rest pre (i + 1)
          (flattenJson el (if pre = "" then toString i else pre ++ "_" ++ toString i) out) := rfl
    have hR : leafTopList (el :: rest) pre i =
        leafKVs el (if pre = "" then toString i else pre ++ "_" ++ toString i) ++
          leafTopList rest pre (i + 1) := rfl
    rw [hL, hR, dsFold_append,
      ← flattenJson_eq_leaf el (if pre = "" then toString i else pre ++ "_" ++ toString i) out]
    exact flattenTopList_eq_leaf rest pre (i + 1) _

end

theorem map_fst_update (d : Assoc) (k v : String) :
    (List.map (fun p => if p.1 = k then (k, v) else p) d).map Prod.fst = d.map Prod.fst := by
  induction d with
  | nil => rfl
  | cons p rest ih => by_cases hp : p.1 = k <;> simp [hp, ih]

theorem dictSet_keys (d : Assoc) (k v : String) :
    (dictSet d k v).map Prod.fst =
      if k ∈ d.map Prod.fst then d.map Prod.fst else d.map Prod.fst ++ [k] := by
  unfold dictSet
  by_cases h : k ∈ d.map Prod.fst
  · rw [if_pos h, if_pos h, map_fst_update]
  · rw [if_neg h, if_neg h, List.map_append]
    rfl

theorem dsFold_keys : ∀ (kvs : List (String × String)) (out : Assoc),
    (dsFold out kvs).map Prod.fst =
      out.map Prod.fst ++
        firstDedup ((kvs.map Prod.fst).filter (fun x => decide (x ∉ out.map Prod.fst))) := by
  intro kvs
  induction kvs with
  | nil => intro out; simp [dsFold, firstDedup]
  | cons kv rest ih =>
    intro out
    obtain ⟨k, v⟩ := kv
    show (dsFold (dictSet out k v) rest).map Prod.fst = _
    rw [ih (dictSet out k v), dictSet_keys]
    by_cases h : k ∈ out.map Prod.fst
    · rw [if_pos h]
      have hk : decide (k ∉ out.map Prod.fst) = false := by simp [h]
      simp only [List.map_cons, List.filter_cons, hk]
      rfl
    · rw [if_neg h]
      have hk : decide (k ∉ out.map Prod.fst) = true := by simp [h]
      simp only [List.map_cons, List.filter_cons, hk, if_pos]
      rw [firstDedup_cons]
      have hpred : ∀ a ∈ rest.map Prod.fst,
          (decide (a ≠ k) && decide (a ∉ out.map Prod.fst)) =
            decide (a ∉ out.map Prod.fst ++ [k]) := by
        intro a _
        by_cases h1 : a = k <;> by_cases h2 : a ∈ out.map Prod.fst <;>
          simp [h1, h2, List.mem_append]
      rw [List.filter_filter, List.filter_congr hpred, List.append_assoc]
      rfl

theorem dsFold_disjoint : ∀ (kvs : List (String × String)) (out : Assoc),
    (kvs.map Prod.fst).Nodup →
    (∀ x ∈ kvs.map Prod.fst, x ∉ out.map Prod.fst) →
    dsFold out kvs = out ++ kvs := by
  intro kvs
  induction kvs with
  | nil => intro out _ _; simp [dsFold]
  | cons kv rest ih =>
    intro out hnd hdis
    obtain ⟨k, v⟩ := kv
    have hk : k ∉ out.map Prod.fst := hdis k (by simp)
    have hstep : dictSet out k v = out ++ [(k, v)] := by
      unfold dictSet
      rw [if_neg hk]
    have hnd2 : (rest.map Prod.fst).Nodup := (List.nodup_cons.mp (by simpa using hnd)).2
    have hknotin : k ∉ rest.map Prod.fst := (List.nodup_cons.mp (by simpa using hnd)).1
    have hdis2 : ∀ x ∈ rest.map Prod.fst, x ∉ (out ++ [(k, v)]).map Prod.fst := by
      intro x hx
      rw [List.map_append, List.mem_append]
      rintro (hc | hc)
      · exact hdis x (by simp [hx]) hc
      · simp only [List.map_cons, List.map_nil, List.mem_singleton] at hc
        subst hc
        exact hknotin hx
    show dsFold (dictSet out k v) rest = out ++ (k, v) :: rest
    rw [hstep, ih (out ++ [(k, v)]) hnd2 hdis2, List.append_assoc]
    rfl

/-- Claim C6: `flatten_json` realizes the spec's column mapping.  The
column list of the flat row is exactly the first-occurrence deduplication
of the leaf writes — one write per leaf scalar (under its prefixed key)
and per list that is not entirely nested objects (joined into one
delimited column), while a list whose elements are all nested objects
(vacuously, also the empty list) explodes into index-suffixed sub-keys —
so each leaf determines exactly one column.  When the leaf keys are
collision-free the flat row is exactly the list of leaf writes with their
stringified values. -/
theorem c6_flatten (j : Json) :
    ((flattenJson j "" []).map Prod.fst = firstDedup ((leafKVs j "").map Prod.fst)) ∧
    (((leafKVs j "").map Prod.fst).Nodup → flattenJson j "" [] = leafKVs j "") := by
  constructor
  · rw [flattenJson_eq_leaf, dsFold_keys]
    simp only [List.map_nil, List.nil_append]
    congr 1
    apply List.filter_eq_self.mpr
    intro a _
    simp
  · intro hnd
    rw [flattenJson_eq_leaf, dsFold_disjoint _ _ hnd (fun x _ hmem => by simp at hmem)]
    rfl

/-- Claim C6 (witness): the flattening theorem at a record exercising all
branches — a scalar, a nested object, a mixed list (joined), and a list
of nested objects (exploded); its leaf keys are collision-free, and the
flat row equals the leaf writes. -/
theorem c6_witness :
    ((leafKVs (Json.obj [("a", .int 1), ("b", .obj [("c", .str "x")]),
        ("d", .arr [.int 2, .null]),
        ("e", .arr [.obj [("f", .bool true)], .obj [("f", .int 3)]])]) "").map Prod.fst).Nodup ∧
    flattenJson (Json.obj [("a", .int 1), ("b", .obj [("c", .str "x")]),
        ("d", .arr [.int 2, .null]),
        ("e", .arr [.obj [("f", .bool true)], .obj [("f", .int 3)]])]) "" [] =
      leafKVs (Json.obj [("a", .int 1), ("b", .obj [("c", .str "x")]),
        ("d", .arr [.int 2, .null]),
        ("e", .arr [.obj [("f", .bool true)], .obj [("f", .int 3)]])]) "" := by
  refine ⟨by decide, (c6_flatten _).2 (by decide)⟩
